import Mathlib

/-!
Verification of the user-CRUD HTTP service (Express + Mongoose) against its
specification.  The five route handlers in `index.js` are shallowly embedded
as pure Lean functions over an explicit store state; the persistence layer
(MongoDB via mongoose) is modelled by a list of records together with a
`dbUp` health flag, and a mongoose `CastError` on a malformed ObjectId is
modelled as a distinct gateway error.
-/

namespace UserApi

/-- A persisted user record.  Mongoose assigns the `id` (an ObjectId string)
at persistence time; the two payload fields are `name` and `email`. -/
structure UserRec where
  id : String
  name : String
  email : String
deriving DecidableEq, Repr

/-- The document store: the sequence of persisted user records. -/
abbrev Store := List UserRec

/-- Errors the persistence gateway can raise: a mongoose cast failure on a
malformed identifier, or an I/O failure of the store itself. -/
inductive DbError where
  | castError
  | ioError
deriving DecidableEq, Repr

/-- A single validation failure entry, as produced by express-validator:
the offending field and its human-readable message. -/
structure Violation where
  field : String
  msg : String
deriving DecidableEq, Repr

/-- Response bodies the handlers produce. -/
inductive Body where
  | empty
  | user (u : UserRec)
  | userList (users : List UserRec) (totalPages : Int) (currentPage : Int)
  | errors (es : List Violation)
  | msg (m : String)
deriving DecidableEq, Repr

/-- An HTTP response: status code and JSON body. -/
structure Response where
  status : Nat
  body : Body
deriving DecidableEq, Repr

/-- Hexadecimal digit test, for ObjectId validity. -/
def isHexChar (c : Char) : Bool :=
  c.isDigit || ( 'a' ≤ c && c ≤ 'f' ) || ( 'A' ≤ c && c ≤ 'F' )

/-- Modelled from the spec: the identifier is an "opaque identifier assigned
by the persistence layer", and a malformed identifier makes the gateway
fail.  Mongoose casts a 24-character hex string to an ObjectId and raises a
`CastError` otherwise; we take 24 hex characters as validity. -/
def isValidObjectId (s : String) : Bool :=
  s.length = 24 && s.toList.all isHexChar

/-- Characters admitted in the local part of an email address. -/
def isLocalChar (c : Char) : Bool :=
  c.isAlphanum || c = '.' || c = '_' || c = '%' || c = '+' || c = '-'

/-- Characters admitted in a domain label of an email address. -/
def isDomainChar (c : Char) : Bool :=
  c.isAlphanum || c = '-'

/-- Split a character list at every occurrence of `sep` (the groups keep
their order; adjacent separators yield empty groups). -/
def splitOnChar (sep : Char) : List Char → List (List Char)
  | [] => [[]]
  | c :: cs =>
    let r := splitOnChar sep cs
    if c = sep then [] :: r
    else
      match r with
      | [] => [[c]]
      | g :: gs => (c :: g) :: gs

/-- Modelled from the spec: `email` "must satisfy a syntactic email-address
check" (the code delegates to express-validator `isEmail`, an external
dependency).  We model the usual syntactic check: a nonempty local part of
admissible characters, an `@`, and a dotted domain whose final label is at
least two alphabetic characters. -/
def isEmail (s : String) : Bool :=
  match splitOnChar '@' s.toList with
  | [lp, dom] =>
      !lp.isEmpty && lp.all isLocalChar &&
      (let labels := splitOnChar '.' dom
       decide (2 ≤ labels.length) &&
       labels.all (fun l => !l.isEmpty && l.all isDomainChar) &&
       (match labels.getLast? with
        | some tld => decide (2 ≤ tld.length) && tld.all Char.isAlpha
        | none => false))
  | _ => false

/-- Value of a character as a digit in the given base (10 or 16), as JS
`parseInt` accepts it; `none` when the character is not a digit. -/
def digitVal (base : Nat) (c : Char) : Option Nat :=
  if c.isDigit then
    if c.toNat - 48 < base then some (c.toNat - 48) else none
  else if base = 16 && 'a' ≤ c && c ≤ 'f' then some (c.toNat - 87)
  else if base = 16 && 'A' ≤ c && c ≤ 'F' then some (c.toNat - 55)
  else none

/-- JS `parseInt(s)`: skip leading whitespace, optional sign, optional
`0x`/`0X` hex prefix, then the longest run of digits; `none` models `NaN`
(no digits at all). -/
def parseIntJS (s : String) : Option Int :=
  let cs := s.toList.dropWhile Char.isWhitespace
  let (sign, cs₁) : Int × List Char :=
    match cs with
    | '-' :: rest => (-1, rest)
    | '+' :: rest => (1, rest)
    | _ => (1, cs)
  let (base, cs₂) : Nat × List Char :=
    match cs₁ with
    | '0' :: 'x' :: rest => (16, rest)
    | '0' :: 'X' :: rest => (16, rest)
    | _ => (10, cs₁)
  let digits := cs₂.takeWhile (fun c => (digitVal base c).isSome)
  if digits.isEmpty then none
  else some (sign * (digits.foldl (fun a c => a * base + ((digitVal base c).getD 0 : Int)) 0))

/-- JS `v || d` on a number: `NaN` (here `none`) and `0` are falsy and fall
back to the default. -/
def jsOrNum (v : Option Int) (d : Int) : Int :=
  match v with
  | none => d
  | some n => if n = 0 then d else n

/-- `parseInt(req.query.page) || 1` (an absent query parameter stringifies
to a non-numeric value, hence `NaN`). -/
def parsePage (q : Option String) : Int :=
  jsOrNum (q.bind parseIntJS) 1

/-- `parseInt(req.query.limit) || 10`. -/
def parseLimit (q : Option String) : Int :=
  jsOrNum (q.bind parseIntJS) 10

/-- Result shape of the list operation: `{ users, totalPages, currentPage }`. -/
structure ListResult where
  users : List UserRec
  totalPages : Int
  currentPage : Int
deriving DecidableEq, Repr

/-- The core of `GET /users`: `User.find().skip((page-1)*limit).limit(limit)`,
`User.countDocuments()`, and `Math.ceil(totalUsers / limit)` (exact rational
division followed by ceiling). -/
def listUsers (page limit : Int) (store : Store) : ListResult :=
  { users := (store.drop ((page - 1) * limit).toNat).take limit.toNat
  , totalPages := ⌈(store.length : ℚ) / (limit : ℚ)⌉
  , currentPage := page }

/-- The `GET /users` handler: parse `page` and `limit` from the query with
JS defaulting, then run the list query; any store failure is a 500 with a
generic message. -/
def getUsers (pageQ limitQ : Option String) (dbUp : Bool) (store : Store) : Response :=
  let page := parsePage pageQ
  let limit := parseLimit limitQ
  if dbUp then
    let r := listUsers page limit store
    ⟨200, Body.userList r.users r.totalPages r.currentPage⟩
  else
    ⟨500, Body.msg "Failed to fetch users"⟩

/-- `User.findById(id)`: fails with `ioError` when the store is down, with
`castError` when the identifier is malformed, and otherwise returns the
first record with that identifier, if any. -/
def dbFindById (id : String) (dbUp : Bool) (store : Store) : Except DbError (Option UserRec) :=
  if !dbUp then Except.error DbError.ioError
  else if !isValidObjectId id then Except.error DbError.castError
  else Except.ok (store.find? (fun r => r.id == id))

/-- The `GET /users/:id` handler. -/
def getUserById (id : String) (dbUp : Bool) (store : Store) : Response :=
  match dbFindById id dbUp store with
  | Except.error _ => ⟨500, Body.msg "Error retrieving user"⟩
  | Except.ok none => ⟨404, Body.msg "User not found"⟩
  | Except.ok (some u) => ⟨200, Body.user u⟩

/-- Read a body field the way express-validator sees it: an absent field is
treated as the empty string when validated. -/
def fieldStr (v : Option String) : String :=
  v.getD ""

/-- The validation layer of `POST /users`: the two express-validator checks
`body('email').isEmail()` and `body('name').notEmpty()`, run in that order
and independently, each contributing one violation entry on failure. -/
def validateCreate (name email : Option String) : List Violation :=
  (if isEmail (fieldStr email) then []
   else [⟨"email", "Please provide a valid email"⟩]) ++
  (if fieldStr name ≠ "" then []
   else [⟨"name", "Name is required"⟩])

/-- The gateway insert used by `newUser.save()`: appends the record when the
store is up, fails otherwise.  The assigned identifier is already on the
record (the handler passes it through from the persistence layer). -/
def dbInsert (dbUp : Bool) (u : UserRec) (store : Store) : Except DbError Store :=
  if dbUp then Except.ok (store ++ [u]) else Except.error DbError.ioError

/-- The `POST /users` handler, parameterised over the gateway insert
operation `ins` so that non-invocation of the gateway on validation failure
is expressible.  `nid` is the identifier the persistence layer assigns to
the new record. -/
def createUser (ins : UserRec → Store → Except DbError Store) (nid : String)
    (name email : Option String) (store : Store) : Response × Store :=
  let errs := validateCreate name email
  if errs ≠ [] then
    (⟨400, Body.errors errs⟩, store)
  else
    let newUser : UserRec := ⟨nid, fieldStr name, fieldStr email⟩
    match ins newUser store with
    | Except.ok store₁ => (⟨201, Body.user newUser⟩, store₁)
    | Except.error _ => (⟨500, Body.msg "Error saving user"⟩, store)

/-- JS `v || old` on a string field: an absent or empty incoming value is
falsy and keeps the prior value. -/
def jsOrStr (v : Option String) (old : String) : String :=
  match v with
  | none => old
  | some s => if s = "" then old else s

/-- `user.save()` on a fetched document: persists the document back under
its identifier, failing when the store is down. -/
def dbSave (dbUp : Bool) (u : UserRec) (store : Store) : Except DbError Store :=
  if dbUp then Except.ok (store.map (fun r => if r.id = u.id then u else r))
  else Except.error DbError.ioError

/-- The field merge of `PUT /users/:id`: the two assignment lines
`user.name = name || user.name; user.email = email || user.email`. -/
def mergeRec (u : UserRec) (name email : Option String) : UserRec :=
  { u with name := jsOrStr name u.name, email := jsOrStr email u.email }

/-- The `PUT /users/:id` handler: load by id (404 when absent), merge the
incoming fields, persist, return the merged record; any thrown error is a
500. -/
def updateUser (id : String) (name email : Option String) (dbUp : Bool)
    (store : Store) : Response × Store :=
  match dbFindById id dbUp store with
  | Except.error _ => (⟨500, Body.msg "Error updating user"⟩, store)
  | Except.ok none => (⟨404, Body.msg "User not found"⟩, store)
  | Except.ok (some u) =>
    match dbSave dbUp (mergeRec u name email) store with
    | Except.ok store₁ => (⟨200, Body.user (mergeRec u name email)⟩, store₁)
    | Except.error _ => (⟨500, Body.msg "Error updating user"⟩, store)

/-- `User.findByIdAndDelete(id)`: fails when the store is down or the
identifier does not cast; otherwise removes the record with that identifier
(a no-op when none exists). -/
def dbDeleteById (id : String) (dbUp : Bool) (store : Store) : Except DbError Store :=
  if !dbUp then Except.error DbError.ioError
  else if !isValidObjectId id then Except.error DbError.castError
  else Except.ok (store.filter (fun r => r.id ≠ id))

/-- The `DELETE /users/:id` handler: request deletion unconditionally, 204
on success with an empty body, 500 on any gateway failure. -/
def deleteUser (id : String) (dbUp : Bool) (store : Store) : Response × Store :=
  match dbDeleteById id dbUp store with
  | Except.ok store₁ => (⟨204, Body.empty⟩, store₁)
  | Except.error _ => (⟨500, Body.msg "Error deleting user"⟩, store)

/-- The rate-limit window: `windowMs: 15 * 60 * 1000` (15 minutes). -/
def windowMs : Nat := 15 * 60 * 1000

/-- The rate-limit threshold: `max: 100` requests per address per window. -/
def maxRequests : Nat := 100

/-- The fixed rejection message of the limiter configuration. -/
def limiterMessage : String := "Too many requests, please try again later."

/-- Per-address limiter state: a request count and a window start time (in
milliseconds) for each caller address. -/
structure LimiterState where
  count : String → Nat
  windowStart : String → Nat

/-- Modelled from the spec: the express-rate-limit middleware itself is an
external dependency; the spec describes "a sliding-window counter keyed by
caller address" whose per-address state "resets independently per caller
address after the window elapses".  One request from `addr` at time `now`:
reset the address window if it has elapsed, increment the address count,
and admit iff the count does not exceed the threshold. -/
def limiterCheck (st : LimiterState) (addr : String) (now : Nat) : Bool × LimiterState :=
  let elapsed := st.windowStart addr + windowMs ≤ now
  let start := if elapsed then now else st.windowStart addr
  let c := (if elapsed then 0 else st.count addr) + 1
  (decide (c ≤ maxRequests),
   ⟨fun a => if a = addr then c else st.count a,
    fun a => if a = addr then start else st.windowStart a⟩)

/-- One inbound request through admission control: a rejected request gets
status 429 with the fixed message and the handler is never run; an admitted
one is processed by the handler `handle`. -/
def serverStep (handle : Store → Response × Store) (st : LimiterState)
    (addr : String) (now : Nat) (store : Store) : Response × LimiterState × Store :=
  let ck := limiterCheck st addr now
  if ck.1 then
    let hs := handle store
    (hs.1, ck.2, hs.2)
  else
    (⟨429, Body.msg limiterMessage⟩, ck.2, store)

/-- Process a sequence of requests `(address, time)` in order. -/
def serverRun (handle : Store → Response × Store) :
    LimiterState → Store → List (String × Nat) → List Response × LimiterState × Store
  | st, store, [] => ([], st, store)
  | st, store, req :: rest =>
    let step := serverStep handle st req.1 req.2 store
    let next := serverRun handle step.2.1 step.2.2 rest
    (step.1 :: next.1, next.2.1, next.2.2)

/-- The limiter state at process start: no requests counted anywhere. -/
def initLimiter : LimiterState :=
  ⟨fun _ => 0, fun _ => 0⟩

/-- A well-formed ObjectId for concrete instantiations. -/
def demoIdA : String := "0123456789abcdef01234567"

/-- A second, distinct well-formed ObjectId. -/
def demoIdB : String := "0123456789abcdef01234568"

/-- A concrete valid user record. -/
def demoUserA : UserRec := ⟨demoIdA, "Ann", "ann@example.com"⟩

/-- The email violation entry of the creation validators. -/
def emailViolation : Violation := ⟨"email", "Please provide a valid email"⟩

/-- The name violation entry of the creation validators. -/
def nameViolation : Violation := ⟨"name", "Name is required"⟩

/-- C2: when at least one creation validation fails, Create returns 400
carrying the full violation list and the store is returned untouched, for
every possible gateway insert operation `ins` (so the gateway is never
invoked). -/
theorem create_shortCircuits_on_invalid
    (ins : UserRec → Store → Except DbError Store) (nid : String)
    (name email : Option String) (store : Store)
    (h : validateCreate name email ≠ []) :
    createUser ins nid name email store =
      (⟨400, Body.errors (validateCreate name email)⟩, store) := by
  simp only [createUser]
  rw [if_pos h]

/-- Witness for C2 at a concrete invalid request. -/
theorem create_shortCircuits_on_invalid_witness :
    validateCreate (some "Ann") (some "not-an-email") ≠ [] ∧
    createUser (dbInsert true) demoIdA (some "Ann") (some "not-an-email") [] =
      (⟨400, Body.errors [emailViolation]⟩, []) := by
  constructor
  · decide
  · have h := create_shortCircuits_on_invalid (dbInsert true) demoIdA
      (some "Ann") (some "not-an-email") [] (by decide)
    rw [h]
    decide

/-- C3: the two creation validators run independently: an invalid email
with a non-empty name yields exactly the email violation, an empty name
with a valid email yields exactly the name violation, and both failing
yield exactly the two violations, at the level of the Create operation. -/
theorem create_validation_independent :
    (∀ (ins : UserRec → Store → Except DbError Store) (nid : String)
       (store : Store) (n e : String), n ≠ "" → isEmail e = false →
       createUser ins nid (some n) (some e) store =
         (⟨400, Body.errors [emailViolation]⟩, store)) ∧
    (∀ (ins : UserRec → Store → Except DbError Store) (nid : String)
       (store : Store) (e : String), isEmail e = true →
       createUser ins nid (some "") (some e) store =
         (⟨400, Body.errors [nameViolation]⟩, store)) ∧
    (∀ (ins : UserRec → Store → Except DbError Store) (nid : String)
       (store : Store) (e : String), isEmail e = false →
       createUser ins nid (some "") (some e) store =
         (⟨400, Body.errors [emailViolation, nameViolation]⟩, store)) := by
  refine ⟨?_, ?_, ?_⟩
  · intro ins nid store n e hn he
    simp [createUser, validateCreate, fieldStr, he, hn, emailViolation]
  · intro ins nid store e he
    simp [createUser, validateCreate, fieldStr, he, nameViolation]
  · intro ins nid store e he
    simp [createUser, validateCreate, fieldStr, he, emailViolation, nameViolation]

/-- Witness for C3 with concrete requests in each of the three cases. -/
theorem create_validation_independent_witness :
    ("Ann" ≠ "" ∧ isEmail "not-an-email" = false ∧
      createUser (dbInsert true) demoIdA (some "Ann") (some "not-an-email") [] =
        (⟨400, Body.errors [emailViolation]⟩, [])) ∧
    (isEmail "ann@example.com" = true ∧
      createUser (dbInsert true) demoIdA (some "") (some "ann@example.com") [] =
        (⟨400, Body.errors [nameViolation]⟩, [])) ∧
    (isEmail "not-an-email" = false ∧
      createUser (dbInsert true) demoIdA (some "") (some "not-an-email") [] =
        (⟨400, Body.errors [emailViolation, nameViolation]⟩, [])) :=
  ⟨⟨by decide, by decide,
     create_validation_independent.1 (dbInsert true) demoIdA [] "Ann" "not-an-email"
       (by decide) (by decide)⟩,
   ⟨by decide,
     create_validation_independent.2.1 (dbInsert true) demoIdA [] "ann@example.com"
       (by decide)⟩,
   ⟨by decide,
     create_validation_independent.2.2 (dbInsert true) demoIdA [] "not-an-email"
       (by decide)⟩⟩

/-- C6: GetById returns the record with status 200 when it exists, 404 when
it does not, 500 when the identifier is malformed or the store is down, and
the malformed-identifier failure is externally identical to the store
failure. -/
theorem getById_cases :
    (∀ (id : String) (store : Store) (u : UserRec), isValidObjectId id = true →
       store.find? (fun r => r.id == id) = some u →
       getUserById id true store = ⟨200, Body.user u⟩) ∧
    (∀ (id : String) (store : Store), isValidObjectId id = true →
       store.find? (fun r => r.id == id) = none →
       getUserById id true store = ⟨404, Body.msg "User not found"⟩) ∧
    (∀ (id : String) (dbUp : Bool) (store : Store),
       isValidObjectId id = false ∨ dbUp = false →
       getUserById id dbUp store = ⟨500, Body.msg "Error retrieving user"⟩) ∧
    (∀ (idBad idAny : String) (s₁ s₂ : Store), isValidObjectId idBad = false →
       getUserById idBad true s₁ = getUserById idAny false s₂) := by
  refine ⟨?_, ?_, ?_, ?_⟩
  · intro id store u hid hfind
    simp [getUserById, dbFindById, hid, hfind]
  · intro id store hid hfind
    simp [getUserById, dbFindById, hid, hfind]
  · intro id dbUp store h
    rcases h with h | h
    · cases dbUp <;> simp [getUserById, dbFindById, h]
    · simp [getUserById, dbFindById, h]
  · intro idBad idAny s₁ s₂ hbad
    simp [getUserById, dbFindById, hbad]

/-- Witness for C6: each branch at a concrete identifier and store. -/
theorem getById_cases_witness :
    (isValidObjectId demoIdA = true ∧ [demoUserA].find? (fun r => r.id == demoIdA) = some demoUserA ∧
      getUserById demoIdA true [demoUserA] = ⟨200, Body.user demoUserA⟩) ∧
    (isValidObjectId demoIdB = true ∧ [demoUserA].find? (fun r => r.id == demoIdB) = none ∧
      getUserById demoIdB true [demoUserA] = ⟨404, Body.msg "User not found"⟩) ∧
    (isValidObjectId "nonexistent-id" = false ∧
      getUserById "nonexistent-id" true [demoUserA] = ⟨500, Body.msg "Error retrieving user"⟩) ∧
    getUserById "nonexistent-id" true [demoUserA] = getUserById demoIdA false [demoUserA] :=
  ⟨⟨by decide, by decide,
     getById_cases.1 demoIdA [demoUserA] demoUserA (by decide) (by decide)⟩,
   ⟨by decide, by decide,
     getById_cases.2.1 demoIdB [demoUserA] (by decide) (by decide)⟩,
   ⟨by decide,
     getById_cases.2.2.1 "nonexistent-id" true [demoUserA] (Or.inl (by decide))⟩,
   getById_cases.2.2.2 "nonexistent-id" demoIdA [demoUserA] [demoUserA] (by decide)⟩

/-- C7: Delete requests deletion unconditionally and returns 204 with an
empty body whenever the gateway call succeeds — in particular when no
record with the identifier exists — and only a gateway failure produces
the generic 500 instead. -/
theorem delete_unconditional :
    (∀ (id : String) (store : Store), isValidObjectId id = true →
       deleteUser id true store =
         (⟨204, Body.empty⟩, store.filter (fun r => r.id ≠ id))) ∧
    (∀ (id : String) (store : Store), isValidObjectId id = true →
       (∀ r ∈ store, r.id ≠ id) →
       deleteUser id true store = (⟨204, Body.empty⟩, store)) ∧
    (∀ (id : String) (dbUp : Bool) (store : Store),
       dbUp = false ∨ isValidObjectId id = false →
       deleteUser id dbUp store = (⟨500, Body.msg "Error deleting user"⟩, store)) := by
  refine ⟨?_, ?_, ?_⟩
  · intro id store hid
    simp [deleteUser, dbDeleteById, hid]
  · intro id store hid habsent
    have hfilter : store.filter (fun r => decide (r.id ≠ id)) = store :=
      List.filter_eq_self.mpr (fun r hr => by
        simpa using habsent r hr)
    simp only [deleteUser, dbDeleteById, hid, Bool.not_true, Bool.false_eq_true,
      if_false, if_true, hfilter]
  · intro id dbUp store h
    rcases h with h | h
    · simp [deleteUser, dbDeleteById, h]
    · cases dbUp <;> simp [deleteUser, dbDeleteById, h]

/-- Witness for C7: deleting a nonexistent identifier still yields 204,
and a down store yields 500. -/
theorem delete_unconditional_witness :
    (isValidObjectId demoIdB = true ∧ (∀ r ∈ [demoUserA], r.id ≠ demoIdB) ∧
      deleteUser demoIdB true [demoUserA] = (⟨204, Body.empty⟩, [demoUserA])) ∧
    deleteUser demoIdA false [demoUserA] = (⟨500, Body.msg "Error deleting user"⟩, [demoUserA]) :=
  ⟨⟨by decide, by decide,
     delete_unconditional.2.1 demoIdB [demoUserA] (by decide) (by decide)⟩,
   delete_unconditional.2.2 demoIdA false [demoUserA] (Or.inl rfl)⟩

/-- C8: a non-numeric or absent `page` falls back to 1, a non-numeric or
absent `limit` falls back to 10, and the list endpoint never fails on bad
pagination input (it answers 200 whenever the store is up). -/
theorem pagination_defaults :
    parsePage none = 1 ∧ parseLimit none = 10 ∧
    (∀ s : String, parseIntJS s = none → parsePage (some s) = 1) ∧
    (∀ s : String, parseIntJS s = none → parseLimit (some s) = 10) ∧
    (∀ (pq lq : Option String) (store : Store),
       (getUsers pq lq true store).status = 200) := by
  refine ⟨rfl, rfl, ?_, ?_, ?_⟩
  · intro s hs
    simp [parsePage, jsOrNum, hs]
  · intro s hs
    simp [parseLimit, jsOrNum, hs]
  · intro pq lq store
    simp [getUsers]

/-- Witness for C8 on concrete non-numeric query values. -/
theorem pagination_defaults_witness :
    parseIntJS "abc" = none ∧ parsePage (some "abc") = 1 ∧
    parseIntJS "ten" = none ∧ parseLimit (some "ten") = 10 ∧
    (getUsers (some "abc") (some "ten") true [demoUserA]).status = 200 :=
  ⟨by decide,
   pagination_defaults.2.2.1 "abc" (by decide),
   by decide,
   pagination_defaults.2.2.2.1 "ten" (by decide),
   pagination_defaults.2.2.2.2 (some "abc") (some "ten") [demoUserA]⟩

/-- Replacing, in a store, every record whose identifier is the found one
by a record with the same identifier makes a lookup find the replacement. -/
lemma find?_map_replace (id : String) (u u₁ : UserRec) (store : Store)
    (hu₁ : u₁.id = u.id)
    (hfind : store.find? (fun r => r.id == id) = some u) :
    (store.map fun r => if r.id = u.id then u₁ else r).find? (fun r => r.id == id) =
      some u₁ := by
  have huid : u.id = id := by
    have h := List.find?_some hfind
    simpa [beq_iff_eq] using h
  induction store with
  | nil => simp at hfind
  | cons a l ih =>
    by_cases ha : a.id = id
    · have hba : (a.id == id) = true := beq_iff_eq.mpr ha
      rw [@List.find?_cons_of_pos _ (fun r => r.id == id) a l hba] at hfind
      have hau : a = u := Option.some.inj hfind
      have hrep : (if a.id = u.id then u₁ else a) = u₁ := if_pos (by rw [hau])
      rw [List.map_cons, hrep]
      exact @List.find?_cons_of_pos _ (fun r => r.id == id) u₁ _
        (beq_iff_eq.mpr (by rw [hu₁, huid]))
    · have hba : ¬ (a.id == id) = true := by simp [beq_iff_eq, ha]
      rw [@List.find?_cons_of_neg _ (fun r => r.id == id) a l hba] at hfind
      have hne : ¬ a.id = u.id := by rw [huid]; exact ha
      rw [List.map_cons, if_neg hne,
        @List.find?_cons_of_neg _ (fun r => r.id == id) a _ hba]
      exact ih hfind

/-- C4: Update on an existing record merges only the present-and-non-empty
payload fields into the record, keeps the identifier, persists exactly that
merged record, and leaves every record with a different identifier at its
old position untouched; in particular a name-only update keeps the prior
email. -/
theorem update_merges_frames (id : String) (name email : Option String)
    (store : Store) (u : UserRec)
    (hid : isValidObjectId id = true)
    (hfind : store.find? (fun r => r.id == id) = some u) :
    updateUser id name email true store =
      (⟨200, Body.user (mergeRec u name email)⟩,
        store.map fun r => if r.id = (mergeRec u name email).id then mergeRec u name email else r) ∧
    (mergeRec u name email).id = u.id ∧
    ((name = none ∨ name = some "") → (mergeRec u name email).name = u.name) ∧
    (∀ s : String, name = some s → s ≠ "" → (mergeRec u name email).name = s) ∧
    ((email = none ∨ email = some "") → (mergeRec u name email).email = u.email) ∧
    (∀ s : String, email = some s → s ≠ "" → (mergeRec u name email).email = s) ∧
    (∀ (i : Nat) (hi : i < store.length), (store.get ⟨i, hi⟩).id ≠ u.id →
       (store.map fun r =>
         if r.id = (mergeRec u name email).id then mergeRec u name email else r)[i]? =
         store[i]?) := by
  refine ⟨?_, rfl, ?_, ?_, ?_, ?_, ?_⟩
  · simp [updateUser, dbFindById, hid, hfind, dbSave]
  · rintro (rfl | rfl) <;> simp [mergeRec, jsOrStr]
  · rintro s rfl hs
    simp [mergeRec, jsOrStr, hs]
  · rintro (rfl | rfl) <;> simp [mergeRec, jsOrStr]
  · rintro s rfl hs
    simp [mergeRec, jsOrStr, hs]
  · intro i hi hne
    rw [List.getElem?_map, List.getElem?_eq_getElem hi]
    have hne' : ¬ (store.get ⟨i, hi⟩).id = (mergeRec u name email).id := by
      simpa [mergeRec] using hne
    simp [List.get_eq_getElem] at hne'
    simp [if_neg hne']

/-- Witness for C4: a name-only update of a concrete record changes the
name and keeps the email. -/
theorem update_merges_frames_witness :
    isValidObjectId demoIdA = true ∧
    [demoUserA].find? (fun r => r.id == demoIdA) = some demoUserA ∧
    updateUser demoIdA (some "New") none true [demoUserA] =
      (⟨200, Body.user ⟨demoIdA, "New", "ann@example.com"⟩⟩,
        [⟨demoIdA, "New", "ann@example.com"⟩]) := by
  refine ⟨by decide, by decide, ?_⟩
  have h := (update_merges_frames demoIdA (some "New") none [demoUserA] demoUserA
    (by decide) (by decide)).1
  rw [h]
  decide

/-- C10: Update applies no email-syntax check: any non-empty string is
accepted and persisted as the email of an existing record, with a 200
response returning it. -/
theorem update_skips_email_validation (id e : String) (store : Store) (u : UserRec)
    (hid : isValidObjectId id = true)
    (hfind : store.find? (fun r => r.id == id) = some u)
    (he : e ≠ "") :
    updateUser id none (some e) true store =
      (⟨200, Body.user ⟨u.id, u.name, e⟩⟩,
        store.map fun r => if r.id = u.id then ⟨u.id, u.name, e⟩ else r) ∧
    getUserById id true (store.map fun r => if r.id = u.id then ⟨u.id, u.name, e⟩ else r) =
      ⟨200, Body.user ⟨u.id, u.name, e⟩⟩ := by
  have hmerge : mergeRec u none (some e) = ⟨u.id, u.name, e⟩ := by
    simp [mergeRec, jsOrStr, he]
  constructor
  · have h := (update_merges_frames id none (some e) store u hid hfind).1
    rw [hmerge] at h
    exact h
  · have hf := find?_map_replace id u ⟨u.id, u.name, e⟩ store rfl hfind
    simp [getUserById, dbFindById, hid, hf]

/-- Witness for C10: a syntactically invalid email is persisted by Update. -/
theorem update_skips_email_validation_witness :
    isValidObjectId demoIdA = true ∧
    [demoUserA].find? (fun r => r.id == demoIdA) = some demoUserA ∧
    "not-an-email" ≠ "" ∧ isEmail "not-an-email" = false ∧
    updateUser demoIdA none (some "not-an-email") true [demoUserA] =
      (⟨200, Body.user ⟨demoIdA, "Ann", "not-an-email"⟩⟩,
        [⟨demoIdA, "Ann", "not-an-email"⟩]) := by
  refine ⟨by decide, by decide, by decide, by decide, ?_⟩
  have h := (update_skips_email_validation demoIdA "not-an-email" [demoUserA] demoUserA
    (by decide) (by decide) (by decide)).1
  rw [h]
  decide

/-- C5: a valid Create persists the new record and a GetById on the
assigned identifier returns exactly that record. -/
theorem create_then_getById (nid : String) (name email : Option String) (store : Store)
    (hval : validateCreate name email = [])
    (hid : isValidObjectId nid = true)
    (hfresh : ∀ r ∈ store, r.id ≠ nid) :
    createUser (dbInsert true) nid name email store =
      (⟨201, Body.user ⟨nid, fieldStr name, fieldStr email⟩⟩,
        store ++ [⟨nid, fieldStr name, fieldStr email⟩]) ∧
    getUserById nid true (store ++ [⟨nid, fieldStr name, fieldStr email⟩]) =
      ⟨200, Body.user ⟨nid, fieldStr name, fieldStr email⟩⟩ := by
  constructor
  · simp [createUser, hval, dbInsert]
  · have h₁ : store.find? (fun r => r.id == nid) = none :=
      List.find?_eq_none.mpr (fun r hr => by simpa [beq_iff_eq] using hfresh r hr)
    have h₂ : ([(⟨nid, fieldStr name, fieldStr email⟩ : UserRec)] : Store).find?
        (fun r => r.id == nid) = some ⟨nid, fieldStr name, fieldStr email⟩ := by
      simp
    simp [getUserById, dbFindById, hid, List.find?_append, h₁, h₂]

/-- Witness for C5: the round trip on a concrete valid creation. -/
theorem create_then_getById_witness :
    validateCreate (some "Ann") (some "ann@example.com") = [] ∧
    isValidObjectId demoIdA = true ∧
    createUser (dbInsert true) demoIdA (some "Ann") (some "ann@example.com") [] =
      (⟨201, Body.user demoUserA⟩, [demoUserA]) ∧
    getUserById demoIdA true [demoUserA] = ⟨200, Body.user demoUserA⟩ := by
  have h := create_then_getById demoIdA (some "Ann") (some "ann@example.com") []
    (by decide) (by decide) (by intro r hr; simp at hr)
  exact ⟨by decide, by decide, h.1, h.2⟩

/-- The integer ceiling of the exact rational quotient of two naturals is
the usual natural ceiling division. -/
lemma ceil_natCast_div (n l : ℕ) (hl : 1 ≤ l) :
    ⌈(n : ℚ) / (l : ℚ)⌉ = (((n + l - 1) / l : ℕ) : ℤ) := by
  have hl0 : (0 : ℚ) < (l : ℚ) := by exact_mod_cast hl
  have h1 := Nat.div_add_mod' (n + l - 1) l
  have h2 : (n + l - 1) % l < l := Nat.mod_lt _ (by omega)
  have hge : n ≤ ((n + l - 1) / l) * l := by omega
  have hub : ((n + l - 1) / l) * l + 1 ≤ n + l := by omega
  have hcast : ((((n + l - 1) / l) * l : ℕ) : ℤ) =
      (((n + l - 1) / l : ℕ) : ℤ) * (l : ℤ) := by
    push_cast
    ring
  rw [Int.ceil_eq_iff]
  constructor
  · have hz : ((((n + l - 1) / l : ℕ) : ℤ) : ℚ) - 1 =
        (((((n + l - 1) / l : ℕ) : ℤ) - 1 : ℤ) : ℚ) := by
      push_cast
      ring
    rw [hz, lt_div_iff₀ hl0]
    have hzi : ((((n + l - 1) / l : ℕ) : ℤ) - 1) * (l : ℤ) < (n : ℤ) := by
      rw [sub_mul, one_mul, ← hcast]
      omega
    exact_mod_cast hzi
  · rw [div_le_iff₀ hl0]
    have hzi : (n : ℤ) ≤ (((n + l - 1) / l : ℕ) : ℤ) * (l : ℤ) := by
      rw [← hcast]
      omega
    exact_mod_cast hzi

/-- C1: for page ≥ 1 and limit ≥ 1, the list operation returns the records
at positions (page-1)*limit, (page-1)*limit+1, ... (it skips exactly
(page-1)*limit records), returns at most limit of them, and reports
totalPages = ceil(total/limit) and currentPage = page. -/
theorem list_pagination (page limit : Int) (store : Store)
    (_hp : 1 ≤ page) (hl : 1 ≤ limit) :
    (listUsers page limit store).users.length ≤ limit.toNat ∧
    (listUsers page limit store).users.length =
      min limit.toNat (store.length - ((page - 1) * limit).toNat) ∧
    (∀ i : Nat, i < (listUsers page limit store).users.length →
       (listUsers page limit store).users[i]? = store[((page - 1) * limit).toNat + i]?) ∧
    (listUsers page limit store).totalPages =
      (((store.length + limit.toNat - 1) / limit.toNat : ℕ) : ℤ) ∧
    (listUsers page limit store).currentPage = page := by
  have hl1 : 1 ≤ limit.toNat := by omega
  refine ⟨?_, ?_, ?_, ?_, rfl⟩
  · simp only [listUsers, List.length_take, List.length_drop]
    exact min_le_left _ _
  · simp [listUsers, List.length_take, List.length_drop]
  · intro i hi
    have hilim : i < limit.toNat := by
      simp only [listUsers, List.length_take, List.length_drop] at hi
      omega
    simp only [listUsers]
    rw [List.getElem?_take, if_pos hilim, List.getElem?_drop]
  · have hlim : ((limit.toNat : ℕ) : ℚ) = (limit : ℚ) := by
      rw [show ((limit.toNat : ℕ) : ℚ) = (((limit.toNat : ℕ) : ℤ) : ℚ) by push_cast; ring]
      rw [Int.toNat_of_nonneg (by omega)]
    simp only [listUsers]
    rw [← hlim]
    exact ceil_natCast_div store.length limit.toNat hl1

/-- A third record, so that page 2 of size 2 is nonempty. -/
def demoStore3 : Store :=
  [demoUserA, ⟨demoIdB, "Bob", "bob@example.com"⟩,
   ⟨"0123456789abcdef01234569", "Cam", "cam@example.com"⟩]

/-- Witness for C1 at page 2, limit 2 over a three-record store. -/
theorem list_pagination_witness :
    (1 : ℤ) ≤ 2 ∧
    (listUsers 2 2 demoStore3).users.length ≤ (2 : ℤ).toNat ∧
    (listUsers 2 2 demoStore3).totalPages =
      (((demoStore3.length + (2 : ℤ).toNat - 1) / (2 : ℤ).toNat : ℕ) : ℤ) ∧
    (listUsers 2 2 demoStore3).currentPage = 2 :=
  ⟨by decide,
   (list_pagination 2 2 demoStore3 (by decide) (by decide)).1,
   (list_pagination 2 2 demoStore3 (by decide) (by decide)).2.2.2.1,
   (list_pagination 2 2 demoStore3 (by decide) (by decide)).2.2.2.2⟩

/-- Requests from one address, all inside the address's current window,
accumulate its counter one-for-one (no reset happens) while the threshold
is not exceeded, whatever the handler does to the store. -/
lemma serverRun_count (handle : Store → Response × Store) (addr : String)
    (ts : List Nat) :
    ∀ (st : LimiterState) (store : Store),
      st.windowStart addr = 0 →
      (∀ x ∈ ts, x < windowMs) →
      st.count addr + ts.length ≤ maxRequests →
      (serverRun handle st store (ts.map fun x => (addr, x))).2.1.count addr =
          st.count addr + ts.length ∧
      (serverRun handle st store (ts.map fun x => (addr, x))).2.1.windowStart addr = 0 := by
  induction ts with
  | nil =>
    intro st store h0 _ _
    exact ⟨rfl, h0⟩
  | cons t rest ih =>
    intro st store h0 hts hc
    have htlt : t < windowMs := hts t (List.mem_cons_self t rest)
    have helapsed : ¬ (st.windowStart addr + windowMs ≤ t) := by omega
    have hok : (limiterCheck st addr t).1 = true := by
      simp only [limiterCheck, if_neg helapsed, decide_eq_true_eq]
      have := hc
      simp only [List.length_cons] at this
      omega
    have hcnt : (limiterCheck st addr t).2.count addr = st.count addr + 1 := by
      simp [limiterCheck, helapsed]
    have hws : (limiterCheck st addr t).2.windowStart addr = 0 := by
      have hdef : (limiterCheck st addr t).2.windowStart addr =
          if addr = addr then
            (if st.windowStart addr + windowMs ≤ t then t else st.windowStart addr)
          else st.windowStart addr := rfl
      rw [hdef, if_pos rfl, if_neg helapsed]
      exact h0
    have hrest : ∀ x ∈ rest, x < windowMs :=
      fun x hx => hts x (List.mem_cons_of_mem t hx)
    have hc₁ : (limiterCheck st addr t).2.count addr + rest.length ≤ maxRequests := by
      rw [hcnt]
      simp only [List.length_cons] at hc
      omega
    have hr := ih (limiterCheck st addr t).2 (handle store).2 hws hrest hc₁
    rw [List.map_cons]
    simp only [serverRun, serverStep, hok, if_true]
    refine ⟨?_, hr.2⟩
    rw [hr.1, hcnt]
    simp only [List.length_cons]
    omega

/-- C9: the admission-control configuration is a 15-minute window with a
threshold of 100 requests per caller address, and after 100 requests from
one address within its window, the next request from that address is
answered with the fixed rejection message and the store is left untouched
— for every possible handler, so the Resource Handler is never reached. -/
theorem rate_limit_101st (handle : Store → Response × Store) (addr : String)
    (ts : List Nat) (t : Nat) (store : Store)
    (hlen : ts.length = 100)
    (hts : ∀ x ∈ ts, x < windowMs)
    (ht : t < windowMs) :
    windowMs = 15 * 60 * 1000 ∧
    maxRequests = 100 ∧
    (serverStep handle
        (serverRun handle initLimiter store (ts.map fun x => (addr, x))).2.1 addr t
        (serverRun handle initLimiter store (ts.map fun x => (addr, x))).2.2).1 =
      ⟨429, Body.msg limiterMessage⟩ ∧
    (serverStep handle
        (serverRun handle initLimiter store (ts.map fun x => (addr, x))).2.1 addr t
        (serverRun handle initLimiter store (ts.map fun x => (addr, x))).2.2).2.2 =
      (serverRun handle initLimiter store (ts.map fun x => (addr, x))).2.2 := by
  have h := serverRun_count handle addr ts initLimiter store rfl hts
    (by rw [hlen]; simp [initLimiter, maxRequests])
  have hcount : (serverRun handle initLimiter store
      (ts.map fun x => (addr, x))).2.1.count addr = 100 := by
    rw [h.1, hlen]
    simp [initLimiter]
  have helapsed : ¬ ((serverRun handle initLimiter store
      (ts.map fun x => (addr, x))).2.1.windowStart addr + windowMs ≤ t) := by
    rw [h.2]
    omega
  have hko : (limiterCheck (serverRun handle initLimiter store
      (ts.map fun x => (addr, x))).2.1 addr t).1 = false := by
    simp only [limiterCheck, if_neg helapsed, hcount]
    decide
  refine ⟨rfl, rfl, ?_, ?_⟩ <;>
    simp [serverStep, hko]

/-- Witness for C9: 101 requests from one address at time 0; the 101st is
rejected with the fixed message. -/
theorem rate_limit_101st_witness :
    (List.replicate 100 0).length = 100 ∧
    (0 : Nat) < windowMs ∧
    (serverStep (fun s => (⟨200, Body.empty⟩, s))
        (serverRun (fun s => (⟨200, Body.empty⟩, s)) initLimiter []
          ((List.replicate 100 0).map fun x => ("203.0.113.7", x))).2.1 "203.0.113.7" 0
        (serverRun (fun s => (⟨200, Body.empty⟩, s)) initLimiter []
          ((List.replicate 100 0).map fun x => ("203.0.113.7", x))).2.2).1 =
      ⟨429, Body.msg limiterMessage⟩ := by
  refine ⟨by simp, by decide, ?_⟩
  exact (rate_limit_101st (fun s => (⟨200, Body.empty⟩, s)) "203.0.113.7"
    (List.replicate 100 0) 0 [] (by simp)
    (fun x hx => by rw [List.eq_of_mem_replicate hx]; decide) (by decide)).2.2.1

end UserApi
